import Mathlib

/-!
Shallow embedding of the channel-query pipeline of `lnd-mcp-server`
(`src/core/queries/channelQueryHandler`-style module, shipped here as
`src/src/core/config/index.ts`, second document: class `ChannelQueryHandler`).

Modelling conventions:
* `uint64` balances and capacities are `Nat`; JavaScript float divisions are
  modelled over `ℚ`, with the JavaScript special values that a division by
  zero can produce (`Infinity`, `NaN`) made explicit where the source code
  does not guard the divisor (the health filter), via `JsRatio`.
* External collaborators (the LND client, `ln-service`, the error
  sanitizer, the response formatters) are opaque parameters: the LND side
  is a `Gateway` record of fallible results (`Except String`), the
  sanitizer a `String → String`, each formatter a function to `String`.
* A thrown JavaScript error is an `Except.error` carrying its message;
  `try/catch` blocks become `match` on the `Except`.
-/

namespace LndMcp

/-- Information recorded for a peer whose alias lookup failed: the
source builds `{ type: 'alias_retrieval_failed', message }` objects. -/
structure ErrInfo where
  type : String
  message : String
  deriving DecidableEq, Repr

/-- A payment channel as used by `ChannelQueryHandler`: the raw LND fields
plus the optional enrichment fields `remote_alias` and `_error` (named
`err` here) that `addNodeAliases` fills in. -/
structure Channel where
  remote_pubkey : String
  capacity : Nat
  local_balance : Nat
  remote_balance : Nat
  active : Bool
  remote_alias : Option String := none
  err : Option ErrInfo := none
  deriving DecidableEq, Repr

/-- Health criteria configured on the handler (constructor default is
`minLocalRatio = 0.1`, `maxLocalRatio = 0.9`). -/
structure HealthCriteria where
  minLocalRatio : ℚ
  maxLocalRatio : ℚ
  deriving DecidableEq, Repr

/-- Default criteria from the `ChannelQueryHandler` constructor. -/
def defaultHealthCriteria : HealthCriteria :=
  { minLocalRatio := 1/10, maxLocalRatio := 9/10 }

/-- Aggregate view produced by `calculateChannelSummary`. -/
structure ChannelSummary where
  totalCapacity : Nat
  totalLocalBalance : Nat
  totalRemoteBalance : Nat
  activeChannels : Nat
  inactiveChannels : Nat
  averageCapacity : ℚ
  mostImbalancedChannel : Option Channel := none
  healthyChannels : Nat
  unhealthyChannels : Nat
  deriving DecidableEq, Repr

/-- Result of `getChannelData`: enriched channels plus their summary. -/
structure ChannelQueryResult where
  channels : List Channel
  summary : ChannelSummary
  deriving DecidableEq, Repr

/-- The `QueryResult` interface returned by `handleQuery`. Optional TS
fields are `Option`; `data` is `none` for the empty object `\x7b\x7d`, and the
`error` field carries the error message. -/
structure QueryResult where
  response : String
  data : Option ChannelQueryResult
  type : Option String := none
  text : Option String := none
  error : Option String := none
  deriving DecidableEq, Repr

/-- A parsed intent: only `type` and `query` are read by the handler. -/
structure Intent where
  type : String
  query : String
  deriving DecidableEq, Repr

/-- The value found at the `channels` key of the `ln-service`
`getChannels` response: a genuine array, or a missing/`null` value, or a
value that is not an array. -/
inductive GetChannelsValue where
  | arr (l : List Channel)
  | missing
  | notArray
  deriving DecidableEq, Repr

/-- The LND-side collaborators of the handler: `lndClient.getLnd()`
(which can throw), `lnService.getChannels` and `lnService.getNodeInfo`.
A successful `getNodeInfo` yields an optional alias string (`none` models
a missing alias or `null` node info). -/
structure Gateway where
  getLnd : Except String Unit
  getChannels : Except String GetChannelsValue
  getNodeInfo : String → Except String (Option String)

/-- JavaScript value of `local_balance / capacity`: a finite number when
`capacity > 0`, `Infinity` for a positive numerator over zero, `NaN` for
`0 / 0`. -/
inductive JsRatio where
  | num (q : ℚ)
  | inf
  | nan
  deriving DecidableEq, Repr

/-- The local-balance ratio of a channel with JavaScript division
semantics. -/
def localRatioJs (c : Channel) : JsRatio :=
  if 0 < c.capacity then .num ((c.local_balance : ℚ) / (c.capacity : ℚ))
  else if 0 < c.local_balance then .inf
  else .nan

/-- JavaScript `<` between a ratio value and a finite criterion
(`NaN < x` and `Infinity < x` are both false). -/
def jsRatioLt : JsRatio → ℚ → Bool
  | .num q, x => decide (q < x)
  | .inf, _ => false
  | .nan, _ => false

/-- JavaScript `>` between a ratio value and a finite criterion
(`NaN > x` is false, `Infinity > x` is true). -/
def jsRatioGt : JsRatio → ℚ → Bool
  | .num q, x => decide (x < q)
  | .inf, _ => true
  | .nan, _ => false

/-- The filter body counting unhealthy channels in
`calculateChannelSummary`: inactive, or local ratio strictly outside the
criteria bounds. -/
def isUnhealthy (crit : HealthCriteria) (c : Channel) : Bool :=
  !c.active || jsRatioLt (localRatioJs c) crit.minLocalRatio
    || jsRatioGt (localRatioJs c) crit.maxLocalRatio

/-- Imbalance ratio `Math.abs(0.5 - local_balance / capacity)`; only ever
used by the source under a `capacity > 0` guard. -/
def imbalanceRatio (c : Channel) : ℚ :=
  |(1 : ℚ)/2 - (c.local_balance : ℚ) / (c.capacity : ℚ)|

/-- One step of the `channels.forEach` loop locating the most imbalanced
channel: the accumulator is `(mostImbalancedChannel, highestImbalanceRatio)`,
updated only when `capacity > 0` and the ratio strictly exceeds the
current best. -/
def imbalanceStep (acc : Option Channel × ℚ) (c : Channel) : Option Channel × ℚ :=
  if 0 < c.capacity then
    if acc.2 < imbalanceRatio c then (some c, imbalanceRatio c) else acc
  else acc

/-- The `mostImbalancedChannel` computed by the loop, starting from
`(undefined, 0)`. -/
def findMostImbalanced (channels : List Channel) : Option Channel :=
  (channels.foldl imbalanceStep (none, 0)).1

/-- Source method `calculateChannelSummary`: early return of an all-zero
summary on the empty list, otherwise filters, `reduce` sums, the
most-imbalanced loop and the unhealthy count. -/
def calculateChannelSummary (crit : HealthCriteria) (channels : List Channel) :
    ChannelSummary :=
  if channels.length = 0 then
    { totalCapacity := 0
      totalLocalBalance := 0
      totalRemoteBalance := 0
      activeChannels := 0
      inactiveChannels := 0
      averageCapacity := 0
      healthyChannels := 0
      unhealthyChannels := 0 }
  else
    let totalCapacity := channels.foldl (fun sum c => sum + c.capacity) 0
    let totalLocalBalance := channels.foldl (fun sum c => sum + c.local_balance) 0
    let totalRemoteBalance := channels.foldl (fun sum c => sum + c.remote_balance) 0
    let unhealthyCount := (channels.filter fun c => isUnhealthy crit c).length
    { totalCapacity := totalCapacity
      totalLocalBalance := totalLocalBalance
      totalRemoteBalance := totalRemoteBalance
      activeChannels := (channels.filter fun c => c.active).length
      inactiveChannels := (channels.filter fun c => !c.active).length
      averageCapacity := (totalCapacity : ℚ) / (channels.length : ℚ)
      mostImbalancedChannel := findMostImbalanced channels
      healthyChannels := channels.length - unhealthyCount
      unhealthyChannels := unhealthyCount }

/-- The `pubkeyMap` key set: first occurrence of each `remote_pubkey`, in
channel order (the source fills a `Map` inside `channels.forEach`, adding
a key only when `!pubkeyMap.has(...)`). -/
def uniquePubkeys (channels : List Channel) : List String :=
  channels.foldl
    (fun acc c => if c.remote_pubkey ∈ acc then acc else acc ++ [c.remote_pubkey]) []

/-- JavaScript `x || 'Unknown'` over an optional alias string: a missing
value or the empty string fall back to `"Unknown"`. -/
def aliasFromNodeInfo : Option String → String
  | some s => if s = "" then "Unknown" else s
  | none => "Unknown"

/-- One settled promise of the alias fan-out: on success the alias is
`nodeInfo?.alias || 'Unknown'` with no error entry; on failure the alias
is the placeholder and an `alias_retrieval_failed` entry is recorded with
the sanitized message. -/
def lookupAlias (getNodeInfo : String → Except String (Option String))
    (sanitize : String → String) (p : String) : String × Option ErrInfo :=
  match getNodeInfo p with
  | .ok a => (aliasFromNodeInfo a, none)
  | .error e => ("Unknown (Error retrieving)",
      some { type := "alias_retrieval_failed", message := sanitize e })

/-- Lookup in an association list, modelling `Map.get` (`none` when the
key is absent). -/
def assocFind {α : Type} (l : List (String × α)) (p : String) : Option α :=
  match l with
  | [] => none
  | (k, v) :: rest => if k = p then some v else assocFind rest p

/-- The updated `pubkeyMap` after all node-info promises settle: each
unique pubkey mapped to its resolved alias. -/
def aliasEntries (getNodeInfo : String → Except String (Option String))
    (sanitize : String → String) (pubkeys : List String) : List (String × String) :=
  pubkeys.map fun p => (p, (lookupAlias getNodeInfo sanitize p).1)

/-- The `errorMap`: entries only for pubkeys whose lookup failed. -/
def errorEntries (getNodeInfo : String → Except String (Option String))
    (sanitize : String → String) (pubkeys : List String) : List (String × ErrInfo) :=
  pubkeys.filterMap fun p => ((lookupAlias getNodeInfo sanitize p).2).map fun e => (p, e)

/-- The `channels.map` at the end of `addNodeAliases`: spread the channel,
set `remote_alias` from the pubkey map (with the `|| 'Unknown'` fallback),
and attach `_error` only when the error map has an entry for the peer. -/
def mapChannelsWithAliases (aliasMap : List (String × String))
    (errMap : List (String × ErrInfo)) (channels : List Channel) : List Channel :=
  channels.map fun c =>
    let aliasStr := aliasFromNodeInfo (assocFind aliasMap c.remote_pubkey)
    match assocFind errMap c.remote_pubkey with
    | some errorInfo => { c with remote_alias := some aliasStr, err := some errorInfo }
    | none => { c with remote_alias := some aliasStr }

/-- Body of the `try` block of `addNodeAliases`: build the unique pubkey
list, settle one lookup per pubkey, and map the channels. -/
def addNodeAliasesBody (getNodeInfo : String → Except String (Option String))
    (sanitize : String → String) (channels : List Channel) : List Channel :=
  let pubkeys := uniquePubkeys channels
  mapChannelsWithAliases (aliasEntries getNodeInfo sanitize pubkeys)
    (errorEntries getNodeInfo sanitize pubkeys) channels

/-- Source method `addNodeAliases`: if the stage itself cannot run
(`getLnd` throws inside the `try`), the `catch` marks every channel with
the placeholder alias and a shared sanitized annotation; otherwise the
fan-out body runs. -/
def addNodeAliases (gw : Gateway) (sanitize : String → String)
    (channels : List Channel) : List Channel :=
  match gw.getLnd with
  | .ok _ => addNodeAliasesBody gw.getNodeInfo sanitize channels
  | .error e => channels.map fun c =>
      { c with
        remote_alias := some "Unknown (Error retrieving)"
        err := some { type := "alias_retrieval_failed", message := sanitize e } }

/-- Source method `enrichChannelsWithMetadata`: skip on the empty list,
otherwise delegate to `addNodeAliases`. -/
def enrichChannelsWithMetadata (gw : Gateway) (sanitize : String → String)
    (channels : List Channel) : List Channel :=
  if channels.length = 0 then [] else addNodeAliases gw sanitize channels

/-- Source method `fetchRawChannelData`: get the client handle, call
`getChannels`, and coerce a missing or non-array `channels` value to the
empty list. -/
def fetchRawChannelData (gw : Gateway) : Except String (List Channel) :=
  match gw.getLnd with
  | .error e => .error e
  | .ok _ =>
    match gw.getChannels with
    | .error e => .error e
    | .ok v =>
      match v with
      | .arr l => .ok l
      | .missing => .ok []
      | .notArray => .ok []

/-- The `try` block of `getChannelData`: fetch, enrich, summarize. Errors
escaping this block are the raw (unsanitized) ones. -/
def getChannelDataRaw (gw : Gateway) (sanitize : String → String)
    (crit : HealthCriteria) : Except String ChannelQueryResult :=
  match fetchRawChannelData gw with
  | .error e => .error e
  | .ok channels =>
    let enrichedChannels := enrichChannelsWithMetadata gw sanitize channels
    .ok { channels := enrichedChannels
          summary := calculateChannelSummary crit enrichedChannels }

/-- Source method `getChannelData`: the `catch` rethrows every error after
sanitizing it. -/
def getChannelData (gw : Gateway) (sanitize : String → String)
    (crit : HealthCriteria) : Except String ChannelQueryResult :=
  match getChannelDataRaw gw sanitize crit with
  | .ok r => .ok r
  | .error e => .error (sanitize e)

/-- The fixed guidance text of the `default` branch of `handleQuery`. -/
def unknownGuidanceText : String :=
  "I didn't understand that query. Try asking about your channel list, health, or liquidity."

/-- Source method `handleQuery`: one common data fetch, a switch on the
intent type selecting a formatter view (the three formatter views are
opaque parameters), a fixed message for every other type, and a `catch`
turning any thrown error into a `type: 'error'` result with empty data. -/
def handleQuery (gw : Gateway) (sanitize : String → String) (crit : HealthCriteria)
    (fmtList fmtHealth fmtLiquidity : ChannelQueryResult → String)
    (intent : Intent) : QueryResult :=
  match getChannelData gw sanitize crit with
  | .ok channelData =>
    match intent.type with
    | "channel_list" =>
      { type := some "channel_list"
        text := some (fmtList channelData)
        response := fmtList channelData
        data := some channelData }
    | "channel_health" =>
      { type := some "channel_health"
        text := some (fmtHealth channelData)
        response := fmtHealth channelData
        data := some channelData }
    | "channel_liquidity" =>
      { type := some "channel_liquidity"
        text := some (fmtLiquidity channelData)
        response := fmtLiquidity channelData
        data := some channelData }
    | _ =>
      { type := some "unknown"
        text := some unknownGuidanceText
        response := unknownGuidanceText
        data := none }
  | .error e =>
    { type := some "error"
      text := some ("Error processing your query: " ++ e)
      response := "Error processing your query: " ++ e
      error := some e
      data := none }

/-- The all-zero summary returned for an empty channel list. -/
def zeroSummary : ChannelSummary :=
  { totalCapacity := 0
    totalLocalBalance := 0
    totalRemoteBalance := 0
    activeChannels := 0
    inactiveChannels := 0
    averageCapacity := 0
    mostImbalancedChannel := none
    healthyChannels := 0
    unhealthyChannels := 0 }

/-- The enrichment applied to one channel by `addNodeAliasesBody`, as a
per-channel function (the pubkey-map indirection resolved). -/
def enrichChannelOne (getNodeInfo : String → Except String (Option String))
    (sanitize : String → String) (c : Channel) : Channel :=
  match lookupAlias getNodeInfo sanitize c.remote_pubkey with
  | (a, some ei) => { c with remote_alias := some a, err := some ei }
  | (a, none) => { c with remote_alias := some a }

/-- Example channel: perfectly balanced (ratio `0.5`, imbalance `0`). -/
def exBalanced : Channel :=
  { remote_pubkey := "pkA", capacity := 1000, local_balance := 500,
    remote_balance := 500, active := true }

/-- Example channel: local ratio `0.05` (imbalance `0.45`). -/
def exSkewed : Channel :=
  { remote_pubkey := "pkB", capacity := 1000, local_balance := 50,
    remote_balance := 950, active := true }

/-- Example gateway whose `getChannels` call throws. -/
def gwFetchFail : Gateway :=
  { getLnd := .ok ()
    getChannels := .error "connect ECONNREFUSED /home/user/.lnd"
    getNodeInfo := fun _ => .ok none }

/-- Example gateway returning a non-array `channels` value. -/
def gwNotArray : Gateway :=
  { getLnd := .ok ()
    getChannels := .ok .notArray
    getNodeInfo := fun _ => .ok none }

/-- Example gateway: two channels, aliases resolve for `pkA` but the
lookup for `pkB` throws. -/
def gwPartial : Gateway :=
  { getLnd := .ok ()
    getChannels := .ok (.arr [exBalanced, exSkewed])
    getNodeInfo := fun p => if p = "pkA" then .ok (some "Alice") else .error "timeout" }

end LndMcp

namespace LndMcp

lemma length_mapChannelsWithAliases (aliasMap : List (String × String))
    (errMap : List (String × ErrInfo)) (channels : List Channel) :
    (mapChannelsWithAliases aliasMap errMap channels).length = channels.length := by
  simp [mapChannelsWithAliases]

lemma length_addNodeAliases (gw : Gateway) (s : String → String)
    (channels : List Channel) :
    (addNodeAliases gw s channels).length = channels.length := by
  unfold addNodeAliases
  cases gw.getLnd with
  | ok u => exact length_mapChannelsWithAliases _ _ _
  | error e => simp

/-- C2: for every channel list and criteria, the healthy and unhealthy
counts computed by `calculateChannelSummary` partition the list:
`healthyChannels + unhealthyChannels = channels.length`. -/
theorem c2_healthy_plus_unhealthy (crit : HealthCriteria) (channels : List Channel) :
    (calculateChannelSummary crit channels).healthyChannels +
      (calculateChannelSummary crit channels).unhealthyChannels = channels.length := by
  unfold calculateChannelSummary
  by_cases h : channels.length = 0
  · simp [h]
  · simp only [h, if_false]
    exact Nat.sub_add_cancel (List.length_filter_le _ _)

/-- C8: a successful fetch whose `channels` value is missing or not an
array is treated as the empty channel set: `fetchRawChannelData` returns
`[]` (not an error), enrichment of `[]` is skipped and returns `[]`, and
the summary is the all-zero one with no most-imbalanced entry. -/
theorem c8_nonlist_is_empty (gw : Gateway) (s : String → String)
    (crit : HealthCriteria) (v : GetChannelsValue)
    (hl : gw.getLnd = Except.ok ()) (hc : gw.getChannels = Except.ok v)
    (hv : ∀ l, v ≠ GetChannelsValue.arr l) :
    fetchRawChannelData gw = Except.ok [] ∧
    enrichChannelsWithMetadata gw s [] = [] ∧
    getChannelData gw s crit = Except.ok { channels := [], summary := zeroSummary } ∧
    calculateChannelSummary crit [] = zeroSummary := by
  have hfetch : fetchRawChannelData gw = Except.ok [] := by
    unfold fetchRawChannelData
    rw [hl, hc]
    cases v with
    | arr l => exact absurd rfl (hv l)
    | missing => rfl
    | notArray => rfl
  refine ⟨hfetch, rfl, ?_, rfl⟩
  unfold getChannelData getChannelDataRaw
  rw [hfetch]
  rfl

lemma handleQuery_unknown_eq (gw : Gateway) (s : String → String)
    (crit : HealthCriteria) (fmtList fmtHealth fmtLiquidity : ChannelQueryResult → String)
    (intent : Intent) (cd : ChannelQueryResult)
    (hok : getChannelData gw s crit = Except.ok cd)
    (h1 : intent.type ≠ "channel_list") (h2 : intent.type ≠ "channel_health")
    (h3 : intent.type ≠ "channel_liquidity") :
    handleQuery gw s crit fmtList fmtHealth fmtLiquidity intent =
      { type := some "unknown"
        text := some unknownGuidanceText
        response := unknownGuidanceText
        data := none
        error := none } := by
  unfold handleQuery
  rw [hok]
  split <;> first | rfl | simp_all

/-- C7: when the common fetch succeeds and the intent type is none of the
three known ones, `handleQuery` returns `type = "unknown"` with the fixed
guidance text and empty data, and the result does not depend on any of
the three formatter views. -/
theorem c7_unknown_intent (gw : Gateway) (s : String → String)
    (crit : HealthCriteria)
    (f1 f2 f3 g1 g2 g3 : ChannelQueryResult → String)
    (intent : Intent) (cd : ChannelQueryResult)
    (hok : getChannelData gw s crit = Except.ok cd)
    (h1 : intent.type ≠ "channel_list") (h2 : intent.type ≠ "channel_health")
    (h3 : intent.type ≠ "channel_liquidity") :
    handleQuery gw s crit f1 f2 f3 intent =
      { type := some "unknown"
        text := some unknownGuidanceText
        response := unknownGuidanceText
        data := none
        error := none } ∧
    handleQuery gw s crit f1 f2 f3 intent = handleQuery gw s crit g1 g2 g3 intent := by
  have hf := handleQuery_unknown_eq gw s crit f1 f2 f3 intent cd hok h1 h2 h3
  have hg := handleQuery_unknown_eq gw s crit g1 g2 g3 intent cd hok h1 h2 h3
  exact ⟨hf, hf.trans hg.symm⟩

/-- Witness for C7 at a concrete gateway and the intent type `bogus`. -/
theorem c7_witness :
    handleQuery gwNotArray (fun m => m) defaultHealthCriteria
        (fun _ => "L") (fun _ => "H") (fun _ => "Q") { type := "bogus", query := "?" } =
      { type := some "unknown"
        text := some unknownGuidanceText
        response := unknownGuidanceText
        data := none
        error := none } :=
  (c7_unknown_intent gwNotArray (fun m => m) defaultHealthCriteria
    (fun _ => "L") (fun _ => "H") (fun _ => "Q") (fun _ => "L2") (fun _ => "H2") (fun _ => "Q2")
    { type := "bogus", query := "?" }
    { channels := [], summary := zeroSummary }
    rfl (by decide) (by decide) (by decide)).1

/-- C1: any error thrown inside `getChannelData` (channel retrieval,
enrichment, summary computation) is caught: `handleQuery` returns a
`QueryResult` with `type = "error"`, the sanitized message in the `error`
field and the response text, and empty data — it never rethrows (in this
embedding `handleQuery` is a total function into `QueryResult`). -/
theorem c1_error_path (gw : Gateway) (s : String → String) (crit : HealthCriteria)
    (f1 f2 f3 : ChannelQueryResult → String) (intent : Intent) (e : String)
    (h : getChannelDataRaw gw s crit = Except.error e) :
    handleQuery gw s crit f1 f2 f3 intent =
      { type := some "error"
        text := some ("Error processing your query: " ++ s e)
        response := "Error processing your query: " ++ s e
        error := some (s e)
        data := none } := by
  unfold handleQuery getChannelData
  rw [h]

/-- Witness for C1: a gateway whose `getChannels` throws an error naming a
private path; the result carries only the sanitized message. -/
theorem c1_witness :
    handleQuery gwFetchFail (fun _ => "[redacted]") defaultHealthCriteria
        (fun _ => "L") (fun _ => "H") (fun _ => "Q") { type := "channel_list", query := "list" } =
      { type := some "error"
        text := some ("Error processing your query: " ++ "[redacted]")
        response := "Error processing your query: " ++ "[redacted]"
        error := some "[redacted]"
        data := none } :=
  c1_error_path gwFetchFail (fun _ => "[redacted]") defaultHealthCriteria
    (fun _ => "L") (fun _ => "H") (fun _ => "Q") { type := "channel_list", query := "list" }
    "connect ECONNREFUSED /home/user/.lnd" rfl

/-- Witness for C8 at a concrete gateway returning a non-array value. -/
theorem c8_witness :
    fetchRawChannelData gwNotArray = Except.ok [] ∧
    enrichChannelsWithMetadata gwNotArray (fun m => m) [] = [] ∧
    getChannelData gwNotArray (fun m => m) defaultHealthCriteria =
      Except.ok { channels := [], summary := zeroSummary } ∧
    calculateChannelSummary defaultHealthCriteria [] = zeroSummary :=
  c8_nonlist_is_empty gwNotArray (fun m => m) defaultHealthCriteria
    GetChannelsValue.notArray rfl rfl (by intro l h; cases h)

lemma mem_uniquePubkeys_foldl (channels : List Channel) (acc : List String) (x : String) :
    x ∈ channels.foldl
        (fun acc c => if c.remote_pubkey ∈ acc then acc else acc ++ [c.remote_pubkey]) acc ↔
      x ∈ acc ∨ x ∈ channels.map (fun c => c.remote_pubkey) := by
  induction channels generalizing acc with
  | nil => simp
  | cons c l ih =>
    simp only [List.foldl_cons, List.map_cons, List.mem_cons]
    rw [ih]
    by_cases h : c.remote_pubkey ∈ acc
    · simp only [h, if_true]
      constructor
      · rintro (hx | hx)
        · exact Or.inl hx
        · exact Or.inr (Or.inr hx)
      · rintro (hx | hx | hx)
        · exact Or.inl hx
        · exact Or.inl (hx ▸ h)
        · exact Or.inr hx
    · simp only [h, if_false, List.mem_append, List.mem_singleton]
      tauto

lemma mem_uniquePubkeys (channels : List Channel) (x : String) :
    x ∈ uniquePubkeys channels ↔ x ∈ channels.map (fun c => c.remote_pubkey) := by
  unfold uniquePubkeys
  rw [mem_uniquePubkeys_foldl]
  simp

lemma nodup_uniquePubkeys_foldl (channels : List Channel) (acc : List String)
    (hacc : acc.Nodup) :
    (channels.foldl
        (fun acc c => if c.remote_pubkey ∈ acc then acc else acc ++ [c.remote_pubkey])
        acc).Nodup := by
  induction channels generalizing acc with
  | nil => exact hacc
  | cons c l ih =>
    simp only [List.foldl_cons]
    by_cases h : c.remote_pubkey ∈ acc
    · simp only [h, if_true]
      exact ih acc hacc
    · simp only [h, if_false]
      refine ih _ ?_
      simp [List.nodup_append, hacc, h]

lemma nodup_uniquePubkeys (channels : List Channel) : (uniquePubkeys channels).Nodup :=
  nodup_uniquePubkeys_foldl channels [] List.nodup_nil

lemma length_uniquePubkeys (channels : List Channel) :
    (uniquePubkeys channels).length =
      (channels.map (fun c => c.remote_pubkey)).dedup.length := by
  rw [← List.card_toFinset (channels.map fun c => c.remote_pubkey)]
  rw [← List.toFinset_card_of_nodup (nodup_uniquePubkeys channels)]
  congr 1
  apply Finset.ext
  intro a
  simp only [List.mem_toFinset]
  exact mem_uniquePubkeys channels a

lemma assocFind_map_self {α : Type} (f : String → α) (l : List String) (p : String)
    (hp : p ∈ l) : assocFind (l.map fun q => (q, f q)) p = some (f p) := by
  induction l with
  | nil => cases hp
  | cons q l ih =>
    simp only [List.map_cons, assocFind]
    by_cases h : q = p
    · simp [h]
    · simp only [h, if_false]
      exact ih (by rcases List.mem_cons.mp hp with h1 | h1; exact absurd h1.symm h; exact h1)

lemma assocFind_filterMap_not_mem {α : Type} (g : String → Option α) (l : List String)
    (p : String) (hp : p ∉ l) :
    assocFind (l.filterMap fun q => (g q).map fun v => (q, v)) p = none := by
  induction l with
  | nil => rfl
  | cons q l ih =>
    have hq : q ≠ p := fun h => hp (h ▸ List.mem_cons_self q l)
    have hpl : p ∉ l := fun h => hp (List.mem_cons_of_mem q h)
    simp only [List.filterMap_cons]
    cases g q with
    | none => exact ih hpl
    | some v =>
      simp only [Option.map_some, assocFind, hq, if_false]
      exact ih hpl

lemma assocFind_filterMap {α : Type} (g : String → Option α) (l : List String)
    (p : String) (hnd : l.Nodup) (hp : p ∈ l) :
    assocFind (l.filterMap fun q => (g q).map fun v => (q, v)) p = g p := by
  induction l with
  | nil => cases hp
  | cons q l ih =>
    have hnd2 := List.nodup_cons.mp hnd
    simp only [List.filterMap_cons]
    by_cases h : q = p
    · subst h
      cases hg : g q with
      | none =>
        have := assocFind_filterMap_not_mem g l q hnd2.1
        simpa using this
      | some v => simp [assocFind]
    · have hpl : p ∈ l := by
        rcases List.mem_cons.mp hp with h1 | h1
        · exact absurd h1.symm h
        · exact h1
      cases hg : g q with
      | none => exact ih hnd2.2 hpl
      | some v =>
        simp only [Option.map_some, assocFind, h, if_false]
        exact ih hnd2.2 hpl

lemma lookupAlias_fst_ne_empty (getNodeInfo : String → Except String (Option String))
    (s : String → String) (p : String) : (lookupAlias getNodeInfo s p).1 ≠ "" := by
  unfold lookupAlias
  cases getNodeInfo p with
  | ok a =>
    cases a with
    | none => simp [aliasFromNodeInfo]
    | some str =>
      simp only [aliasFromNodeInfo]
      by_cases h : str = "" <;> simp [h]
  | error e => simp

lemma aliasFromNodeInfo_some_of_ne (x : String) (hx : x ≠ "") :
    aliasFromNodeInfo (some x) = x := by
  simp [aliasFromNodeInfo, hx]

lemma addNodeAliasesBody_eq_map (g : String → Except String (Option String))
    (s : String → String) (channels : List Channel) :
    addNodeAliasesBody g s channels = channels.map (enrichChannelOne g s) := by
  unfold addNodeAliasesBody mapChannelsWithAliases
  apply List.map_congr_left
  intro c hc
  have hmem : c.remote_pubkey ∈ uniquePubkeys channels := by
    rw [mem_uniquePubkeys]
    exact List.mem_map_of_mem _ hc
  have halias :
      assocFind (aliasEntries g s (uniquePubkeys channels)) c.remote_pubkey =
        some (lookupAlias g s c.remote_pubkey).1 :=
    assocFind_map_self _ _ _ hmem
  have herr :
      assocFind (errorEntries g s (uniquePubkeys channels)) c.remote_pubkey =
        (lookupAlias g s c.remote_pubkey).2 :=
    assocFind_filterMap _ _ _ (nodup_uniquePubkeys channels) hmem
  rw [halias, herr,
    aliasFromNodeInfo_some_of_ne _ (lookupAlias_fst_ne_empty g s c.remote_pubkey)]
  unfold enrichChannelOne
  rcases hL : lookupAlias g s c.remote_pubkey with ⟨a, ei⟩
  cases ei <;> rfl

/-- C3: alias resolution preserves the channel count, and the fan-out is
over `uniquePubkeys channels`: a list without duplicates whose members are
exactly the `remote_pubkey` values occurring in the input, of length equal
to the number of distinct `remote_pubkey` values, with exactly one
node-info lookup issued per element of that list (`aliasEntries` pairs
each pubkey of the list with one settled lookup). -/
theorem c3_length_and_lookups (gw : Gateway) (s : String → String)
    (channels : List Channel) :
    (addNodeAliases gw s channels).length = channels.length ∧
    (uniquePubkeys channels).Nodup ∧
    (∀ p, p ∈ uniquePubkeys channels ↔ p ∈ channels.map (fun c => c.remote_pubkey)) ∧
    (uniquePubkeys channels).length =
      (channels.map (fun c => c.remote_pubkey)).dedup.length ∧
    (aliasEntries gw.getNodeInfo s (uniquePubkeys channels)).length =
      (uniquePubkeys channels).length :=
  ⟨length_addNodeAliases gw s channels,
   nodup_uniquePubkeys channels,
   fun p => mem_uniquePubkeys channels p,
   length_uniquePubkeys channels,
   by simp [aliasEntries]⟩

lemma addNodeAliases_ok_getElem (gw : Gateway) (s : String → String)
    (channels : List Channel) (i : Nat) (c : Channel)
    (hlnd : gw.getLnd = Except.ok ()) (hc : channels[i]? = some c) :
    (addNodeAliases gw s channels)[i]? = some (enrichChannelOne gw.getNodeInfo s c) := by
  unfold addNodeAliases
  rw [hlnd, addNodeAliasesBody_eq_map, List.getElem?_map, hc]
  rfl

/-- C4: per-peer isolation of alias failures. If a channel's peer lookup
throws, that channel comes back (at its position) with the placeholder
alias and an `alias_retrieval_failed` annotation carrying the sanitized
message; if the lookup succeeds the channel carries the resolved alias and
no new annotation; and if the stage as a whole cannot run (`getLnd`
throws), every channel comes back with the placeholder and the shared
annotation. In all cases the output has the same length as the input and
the function is total (never throws). -/
theorem c4_alias_failure_isolation (gw : Gateway) (s : String → String)
    (channels : List Channel) (i : Nat) (c : Channel)
    (hc : channels[i]? = some c) :
    (addNodeAliases gw s channels).length = channels.length ∧
    (gw.getLnd = Except.ok () → ∀ e,
      gw.getNodeInfo c.remote_pubkey = Except.error e →
      (addNodeAliases gw s channels)[i]? =
        some { c with
               remote_alias := some "Unknown (Error retrieving)"
               err := some { type := "alias_retrieval_failed", message := s e } }) ∧
    (gw.getLnd = Except.ok () → ∀ a,
      gw.getNodeInfo c.remote_pubkey = Except.ok a →
      (addNodeAliases gw s channels)[i]? =
        some { c with remote_alias := some (aliasFromNodeInfo a) }) ∧
    (∀ e, gw.getLnd = Except.error e →
      (addNodeAliases gw s channels)[i]? =
        some { c with
               remote_alias := some "Unknown (Error retrieving)"
               err := some { type := "alias_retrieval_failed", message := s e } }) := by
  refine ⟨length_addNodeAliases gw s channels, ?_, ?_, ?_⟩
  · intro hlnd e hni
    rw [addNodeAliases_ok_getElem gw s channels i c hlnd hc]
    unfold enrichChannelOne lookupAlias
    rw [hni]
  · intro hlnd a hni
    rw [addNodeAliases_ok_getElem gw s channels i c hlnd hc]
    unfold enrichChannelOne lookupAlias
    rw [hni]
  · intro e hlnd
    unfold addNodeAliases
    rw [hlnd, List.getElem?_map, hc]
    rfl

/-- Witness for C4 with a two-channel, two-peer gateway where the lookup
for `pkB` fails and the one for `pkA` succeeds. -/
theorem c4_witness :
    (addNodeAliases gwPartial (fun m => m) [exBalanced, exSkewed])[1]? =
      some { exSkewed with
             remote_alias := some "Unknown (Error retrieving)"
             err := some { type := "alias_retrieval_failed", message := "timeout" } } ∧
    (addNodeAliases gwPartial (fun m => m) [exBalanced, exSkewed])[0]? =
      some { exBalanced with remote_alias := some (aliasFromNodeInfo (some "Alice")) } :=
  ⟨(c4_alias_failure_isolation gwPartial (fun m => m) [exBalanced, exSkewed] 1 exSkewed
      rfl).2.1 rfl "timeout" rfl,
   (c4_alias_failure_isolation gwPartial (fun m => m) [exBalanced, exSkewed] 0 exBalanced
      rfl).2.2.1 rfl (some "Alice") rfl⟩

/-- C9: frame property of enrichment. The channel returned at each
position keeps `remote_pubkey`, `capacity`, `local_balance`,
`remote_balance` and `active` unchanged; `remote_alias` is always set to
some value, and the `_error` field is either the input channel's own or a
new `alias_retrieval_failed` annotation — nothing else is modified or
removed, and the length is preserved. -/
theorem c9_enrichment_frame (gw : Gateway) (s : String → String)
    (channels : List Channel) (i : Nat) (c : Channel)
    (hc : channels[i]? = some c) :
    (addNodeAliases gw s channels).length = channels.length ∧
    ∃ d, (addNodeAliases gw s channels)[i]? = some d ∧
      d.remote_pubkey = c.remote_pubkey ∧
      d.capacity = c.capacity ∧
      d.local_balance = c.local_balance ∧
      d.remote_balance = c.remote_balance ∧
      d.active = c.active ∧
      (∃ a, d.remote_alias = some a) ∧
      (d.err = c.err ∨
        ∃ m, d.err = some { type := "alias_retrieval_failed", message := m }) := by
  refine ⟨length_addNodeAliases gw s channels, ?_⟩
  cases hlnd : gw.getLnd with
  | ok u =>
    refine ⟨enrichChannelOne gw.getNodeInfo s c, ?_, ?_⟩
    · exact addNodeAliases_ok_getElem gw s channels i c (by rw [hlnd]) hc
    · unfold enrichChannelOne lookupAlias
      cases hni : gw.getNodeInfo c.remote_pubkey with
      | ok a =>
        exact ⟨rfl, rfl, rfl, rfl, rfl, ⟨aliasFromNodeInfo a, rfl⟩, Or.inl rfl⟩
      | error e =>
        exact ⟨rfl, rfl, rfl, rfl, rfl, ⟨"Unknown (Error retrieving)", rfl⟩,
          Or.inr ⟨s e, rfl⟩⟩
  | error e =>
    refine ⟨{ c with
              remote_alias := some "Unknown (Error retrieving)"
              err := some { type := "alias_retrieval_failed", message := s e } }, ?_, ?_⟩
    · unfold addNodeAliases
      rw [hlnd, List.getElem?_map, hc]
      rfl
    · exact ⟨rfl, rfl, rfl, rfl, rfl, ⟨"Unknown (Error retrieving)", rfl⟩,
        Or.inr ⟨s e, rfl⟩⟩

/-- Witness for C9 at a concrete input (failing peer of `gwPartial`). -/
theorem c9_witness :
    ∃ d, (addNodeAliases gwPartial (fun m => m) [exBalanced, exSkewed])[1]? = some d ∧
      d.remote_pubkey = exSkewed.remote_pubkey ∧
      d.capacity = exSkewed.capacity ∧
      d.local_balance = exSkewed.local_balance ∧
      d.remote_balance = exSkewed.remote_balance ∧
      d.active = exSkewed.active ∧
      (∃ a, d.remote_alias = some a) ∧
      (d.err = exSkewed.err ∨
        ∃ m, d.err = some { type := "alias_retrieval_failed", message := m }) :=
  (c9_enrichment_frame gwPartial (fun m => m) [exBalanced, exSkewed] 1 exSkewed rfl).2

/-- C10: a lookup that succeeds with a missing or empty alias yields the
plain placeholder `"Unknown"` (distinct from the failure placeholder) and
leaves the error field untouched (no annotation is added). -/
theorem c10_missing_alias (gw : Gateway) (s : String → String)
    (channels : List Channel) (i : Nat) (c : Channel)
    (hc : channels[i]? = some c) (hlnd : gw.getLnd = Except.ok ())
    (ha : gw.getNodeInfo c.remote_pubkey = Except.ok none ∨
          gw.getNodeInfo c.remote_pubkey = Except.ok (some "")) :
    (addNodeAliases gw s channels)[i]? = some { c with remote_alias := some "Unknown" } ∧
    "Unknown" ≠ "Unknown (Error retrieving)" := by
  refine ⟨?_, by decide⟩
  rw [addNodeAliases_ok_getElem gw s channels i c hlnd hc]
  unfold enrichChannelOne lookupAlias
  rcases ha with ha | ha <;> rw [ha] <;> rfl

/-- Witness for C10: the gateway answering `ok none` for every pubkey. -/
theorem c10_witness :
    (addNodeAliases gwNotArray (fun m => m) [exBalanced])[0]? =
      some { exBalanced with remote_alias := some "Unknown" } ∧
    "Unknown" ≠ "Unknown (Error retrieving)" :=
  c10_missing_alias gwNotArray (fun m => m) [exBalanced] 0 exBalanced rfl rfl (Or.inl rfl)

lemma imbalanceFold_spec (l : List Channel) (cur : Option Channel) (b : ℚ) :
    (l.foldl imbalanceStep (cur, b) = (cur, b) ∧
      ∀ (j : Nat) (d : Channel), l[j]? = some d → 0 < d.capacity →
        imbalanceRatio d ≤ b) ∨
    (∃ (i : Nat) (ch : Channel), l[i]? = some ch ∧
      l.foldl imbalanceStep (cur, b) = (some ch, imbalanceRatio ch) ∧
      0 < ch.capacity ∧ b < imbalanceRatio ch ∧
      (∀ (j : Nat) (d : Channel), l[j]? = some d → 0 < d.capacity →
        imbalanceRatio d ≤ imbalanceRatio ch) ∧
      (∀ (j : Nat) (d : Channel), j < i → l[j]? = some d → 0 < d.capacity →
        imbalanceRatio d < imbalanceRatio ch)) := by
  induction l generalizing cur b with
  | nil =>
    left
    exact ⟨rfl, by intro j d hjd; simp at hjd⟩
  | cons c l ih =>
    by_cases hupd : 0 < c.capacity ∧ b < imbalanceRatio c
    · obtain ⟨hcap, hlt⟩ := hupd
      have hstep : imbalanceStep (cur, b) c = (some c, imbalanceRatio c) := by
        simp [imbalanceStep, hcap, hlt]
      rw [List.foldl_cons, hstep]
      rcases ih (some c) (imbalanceRatio c) with ⟨heq, hle⟩ |
        ⟨i, ch, hget, hfold, hchcap, hbi, hall, hbef⟩
      · right
        refine ⟨0, c, by simp, heq, hcap, hlt, ?_, ?_⟩
        · intro j d hjd hdcap
          cases j with
          | zero =>
            simp at hjd
            subst hjd
            exact le_refl _
          | succ j => exact hle j d (by simpa using hjd) hdcap
        · intro j d hj _ _
          omega
      · right
        refine ⟨i + 1, ch, by simpa using hget, hfold, hchcap,
          lt_trans hlt hbi, ?_, ?_⟩
        · intro j d hjd hdcap
          cases j with
          | zero =>
            simp at hjd
            subst hjd
            exact le_of_lt hbi
          | succ j => exact hall j d (by simpa using hjd) hdcap
        · intro j d hj hjd hdcap
          cases j with
          | zero =>
            simp at hjd
            subst hjd
            exact hbi
          | succ j => exact hbef j d (by omega) (by simpa using hjd) hdcap
    · have hside : 0 < c.capacity → imbalanceRatio c ≤ b := by
        intro h
        by_contra hh
        exact hupd ⟨h, not_le.mp hh⟩
      have hstep : imbalanceStep (cur, b) c = (cur, b) := by
        unfold imbalanceStep
        by_cases h1 : 0 < c.capacity
        · have h2 : ¬ b < imbalanceRatio c := not_lt.mpr (hside h1)
          simp [h1, h2]
        · simp [h1]
      rw [List.foldl_cons, hstep]
      rcases ih cur b with ⟨heq, hle⟩ | ⟨i, ch, hget, hfold, hchcap, hbi, hall, hbef⟩
      · left
        refine ⟨heq, ?_⟩
        intro j d hjd hdcap
        cases j with
        | zero =>
          simp at hjd
          subst hjd
          exact hside hdcap
        | succ j => exact hle j d (by simpa using hjd) hdcap
      · right
        refine ⟨i + 1, ch, by simpa using hget, hfold, hchcap, hbi, ?_, ?_⟩
        · intro j d hjd hdcap
          cases j with
          | zero =>
            simp at hjd
            subst hjd
            exact le_of_lt (lt_of_le_of_lt (hside hdcap) hbi)
          | succ j => exact hall j d (by simpa using hjd) hdcap
        · intro j d hj hjd hdcap
          cases j with
          | zero =>
            simp at hjd
            subst hjd
            exact lt_of_le_of_lt (hside hdcap) hbi
          | succ j => exact hbef j d (by omega) (by simpa using hjd) hdcap

lemma summary_mostImbalanced (crit : HealthCriteria) (channels : List Channel) :
    (calculateChannelSummary crit channels).mostImbalancedChannel =
      findMostImbalanced channels := by
  unfold calculateChannelSummary
  by_cases h : channels.length = 0
  · have hnil : channels = [] := List.length_eq_zero.mp h
    subst hnil
    simp [findMostImbalanced]
  · simp [h]

/-- Counterexample to C5 as stated: a non-empty channel set (one perfectly
balanced channel, imbalance ratio `0`) for which the summary has no
most-imbalanced channel — absence is not equivalent to emptiness. -/
theorem c5_counterexample :
    (calculateChannelSummary defaultHealthCriteria [exBalanced]).mostImbalancedChannel =
      none ∧
    ([exBalanced] : List Channel) ≠ [] := by
  constructor
  · rw [summary_mostImbalanced]
    unfold findMostImbalanced
    have h0 : imbalanceRatio exBalanced = 0 := by
      unfold imbalanceRatio exBalanced
      norm_num
    have hcap : 0 < exBalanced.capacity := by norm_num [exBalanced]
    simp [List.foldl, imbalanceStep, h0, hcap]
  · simp

/-- C5 (amended): the most-imbalanced channel is absent exactly when no
channel has both positive capacity and a nonzero imbalance ratio (so, in
particular, when the set is empty, but also when every channel is
perfectly balanced or has zero capacity); when present it is a channel
with positive capacity and strictly positive imbalance ratio, maximal
among the channels with positive capacity, and every earlier channel with
positive capacity has a strictly smaller ratio (ties keep the first
encountered in input order). -/
theorem c5_most_imbalanced (crit : HealthCriteria) (channels : List Channel) :
    ((calculateChannelSummary crit channels).mostImbalancedChannel = none ↔
      ∀ c ∈ channels, c.capacity = 0 ∨ imbalanceRatio c = 0) ∧
    (∀ ch, (calculateChannelSummary crit channels).mostImbalancedChannel = some ch →
      ∃ (i : Nat), channels[i]? = some ch ∧ 0 < ch.capacity ∧ 0 < imbalanceRatio ch ∧
        (∀ (j : Nat) (d : Channel), channels[j]? = some d → 0 < d.capacity →
          imbalanceRatio d ≤ imbalanceRatio ch) ∧
        (∀ (j : Nat) (d : Channel), j < i → channels[j]? = some d → 0 < d.capacity →
          imbalanceRatio d < imbalanceRatio ch)) := by
  rw [summary_mostImbalanced]
  unfold findMostImbalanced
  rcases imbalanceFold_spec channels none 0 with ⟨heq, hle⟩ |
    ⟨i, ch, hget, hfold, hchcap, hbi, hall, hbef⟩
  · rw [heq]
    constructor
    · simp only [true_iff]
      intro c hc
      by_cases hcap : 0 < c.capacity
      · right
        obtain ⟨n, hn⟩ := List.get?_of_mem hc
        have hn2 : channels[n]? = some c := by
          rw [← List.get?_eq_getElem?]
          exact hn
        exact le_antisymm (hle n c hn2 hcap) (abs_nonneg _)
      · left
        omega
    · intro ch hch
      simp at hch
  · rw [hfold]
    constructor
    · simp only [reduceCtorEq, false_iff]
      intro hzero
      rcases hzero ch (List.getElem?_mem hget) with h | h
      · omega
      · exact absurd h (ne_of_gt hbi)
    · intro ch2 hch2
      simp only [Option.some.injEq] at hch2
      subst hch2
      exact ⟨i, hget, hchcap, hbi, hall, hbef⟩

/-- C6: the unhealthy count of `calculateChannelSummary` is the number of
channels passing the `isUnhealthy` filter and the healthy count is the
rest; for any channel with positive capacity (so that its local ratio is
a well-defined number) and any criteria with `minLocalRatio <
maxLocalRatio`, the filter holds exactly when the channel is inactive or
its local ratio is strictly below `minLocalRatio` or strictly above
`maxLocalRatio`; in particular the ratio-`0.05` channel is unhealthy
under the default criteria. -/
theorem c6_unhealthy_criteria (crit : HealthCriteria) (channels : List Channel)
    (hcrit : crit.minLocalRatio < crit.maxLocalRatio) :
    ((calculateChannelSummary crit channels).unhealthyChannels =
        (channels.filter fun c => isUnhealthy crit c).length ∧
      (calculateChannelSummary crit channels).healthyChannels =
        channels.length - (channels.filter fun c => isUnhealthy crit c).length) ∧
    (∀ c ∈ channels, 0 < c.capacity →
      (isUnhealthy crit c = true ↔
        (c.active = false ∨
          (c.local_balance : ℚ) / (c.capacity : ℚ) < crit.minLocalRatio ∨
          crit.maxLocalRatio < (c.local_balance : ℚ) / (c.capacity : ℚ)))) ∧
    isUnhealthy defaultHealthCriteria exSkewed = true := by
  refine ⟨?_, ?_, ?_⟩
  · unfold calculateChannelSummary
    by_cases h : channels.length = 0
    · have hnil : channels = [] := List.length_eq_zero.mp h
      subst hnil
      simp
    · simp [h]
  · intro c _ hcap
    unfold isUnhealthy localRatioJs jsRatioLt jsRatioGt
    simp only [hcap, if_true]
    cases c.active <;> simp
  · unfold isUnhealthy localRatioJs jsRatioLt jsRatioGt exSkewed defaultHealthCriteria
    norm_num

/-- Witness for C6 at the default criteria and the ratio-`0.05` channel. -/
theorem c6_witness :
    ((calculateChannelSummary defaultHealthCriteria [exSkewed]).unhealthyChannels =
        ([exSkewed].filter fun c => isUnhealthy defaultHealthCriteria c).length ∧
      (calculateChannelSummary defaultHealthCriteria [exSkewed]).healthyChannels =
        ([exSkewed] : List Channel).length -
          ([exSkewed].filter fun c => isUnhealthy defaultHealthCriteria c).length) ∧
    isUnhealthy defaultHealthCriteria exSkewed = true :=
  ⟨(c6_unhealthy_criteria defaultHealthCriteria [exSkewed]
      (by norm_num [defaultHealthCriteria])).1,
   (c6_unhealthy_criteria defaultHealthCriteria [exSkewed]
      (by norm_num [defaultHealthCriteria])).2.2⟩

end LndMcp
